import Mathlib

/-!
# terraform-provider-aws: three service packages

A shallow embedding of

* `internal/service/dynamodb/service_package.go` (the retry classifier that `NewClient` installs),
* `internal/service/cleanrooms/find.go` and `configured_table_association.go`
  (the finder and the four CRUD handlers of `aws_cleanrooms_configured_table_association`),
* `internal/service/rum/service_package_gen.go` (the generated registry),

followed by the properties proved about them.

Conventions of the embedding.

* A Go pointer `*T` is an `Option T`; `nil` is `none`.
* The Go interface type `error` is the inductive type `GoError`, whose constructor `nil` is the
  nil interface value, so `err != nil` reads `err ≠ GoError.nil`.
* An SDK client is a record of functions from a request to the pair `(out, err)` the call yields.
* A handler returns the `*schema.ResourceData` it leaves behind, the API calls it issued in
  order, and how it ended: with diagnostics, or in a nil-pointer panic.
-/

set_option autoImplicit false

namespace TerraformProviderAws

/-! ## Requests that an error value can carry -/

/-- The struct `cleanrooms.GetConfiguredTableAssociationInput` of the AWS SDK. -/
structure GetConfiguredTableAssociationInput where
  ConfiguredTableAssociationIdentifier : Option String
  MembershipIdentifier : Option String
  deriving DecidableEq, Repr

/-! ## Go errors -/

/-- The values of the Go interface type `error` that occur in these packages.

* `nil`: the nil error;
* `AccessDeniedException`: `*types.AccessDeniedException` of service/cleanrooms;
* `LimitExceededException`: `*types.LimitExceededException` of service/dynamodb;
* `NotFoundError`: `*retry.NotFoundError` of the plugin SDK, whose `Unwrap` is `LastError`;
* `EmptyResultError`: `*tfresource.EmptyResultError`;
* `errorString`: what `errors.New` returns;
* `wrapError`: any wrapper whose `Unwrap` returns `err`, such as `fmt.Errorf` with the verb w
  or the operation errors the SDK puts around an API exception. -/
inductive GoError where
  | nil
  | AccessDeniedException (Message : Option String)
  | LimitExceededException (Message : Option String)
  | NotFoundError (LastError : GoError)
      (LastRequest : Option GetConfiguredTableAssociationInput) (Message : String)
  | EmptyResultError (LastRequest : Option GetConfiguredTableAssociationInput)
  | errorString (s : String)
  | wrapError (msg : String) (err : GoError)
  deriving DecidableEq, Repr

/-- The target types that `errors.As` is asked for in these packages. -/
inductive ErrorType where
  | AccessDeniedException
  | LimitExceededException
  | NotFoundError
  deriving DecidableEq, Repr

/-- The method `ErrorMessage()` of an API exception: the message, or the empty string when the
message pointer is nil. Other errors have no such method; they get the empty string. -/
def GoError.ErrorMessage : GoError → String
  | .nil => ""
  | .AccessDeniedException m => m.getD ""
  | .LimitExceededException m => m.getD ""
  | .NotFoundError _ _ _ => ""
  | .EmptyResultError _ => ""
  | .errorString _ => ""
  | .wrapError _ _ => ""

/-- Go's `errors.As(err, &target)` for a target of type `T`: walk the chain of `err`; the first
error that has type `T`, or whose own `As` method accepts the target, is the answer.
`EmptyResultError.As` accepts a `**retry.NotFoundError` and stores a fresh not-found error in
it. The result is the value stored in the target, `none` when `errors.As` returns false. -/
def errors.As : GoError → ErrorType → Option GoError
  | .nil, _ => none
  | .AccessDeniedException m, T =>
      if T = .AccessDeniedException then some (.AccessDeniedException m) else none
  | .LimitExceededException m, T =>
      if T = .LimitExceededException then some (.LimitExceededException m) else none
  | .NotFoundError last req msg, T =>
      if T = .NotFoundError then some (.NotFoundError last req msg) else errors.As last T
  | .EmptyResultError req, T =>
      if T = .NotFoundError then some (.NotFoundError .nil req "empty result") else none
  | .errorString _, _ => none
  | .wrapError _ err, T => errors.As err T

/-- The chain of an error: the error itself, then what `Unwrap` yields, and so on to the end. -/
def GoError.chain : GoError → List GoError
  | .nil => []
  | .AccessDeniedException m => [.AccessDeniedException m]
  | .LimitExceededException m => [.LimitExceededException m]
  | .NotFoundError last req msg => .NotFoundError last req msg :: last.chain
  | .EmptyResultError req => [.EmptyResultError req]
  | .errorString s => [.errorString s]
  | .wrapError msg err => .wrapError msg err :: err.chain

/-! ## Go strings -/

/-- Whether the characters `s` start with the characters `p`. -/
def strings.startsWithChars : List Char → List Char → Bool
  | _, [] => true
  | [], _ :: _ => false
  | c :: cs, p :: ps => c == p && strings.startsWithChars cs ps

/-- Whether `sub` occurs in `s` at some position. -/
def strings.containsChars : List Char → List Char → Bool
  | [], sub => sub.isEmpty
  | c :: cs, sub => strings.startsWithChars (c :: cs) sub || strings.containsChars cs sub

/-- Go's `strings.Contains(s, substr)`. -/
def strings.Contains (s substr : String) : Bool :=
  strings.containsChars s.data substr.data

/-! ## Package `internal/errs` -/

/-- Modelled from the spec: `errs.IsA[T](err)` of package `internal/errs`, which is not among
the sources; one of the spec's "simple type assertions": whether `errors.As` finds an error of
type `T` in the chain of `err`. -/
def errs.IsA (T : ErrorType) (err : GoError) : Bool :=
  (errors.As err T).isSome

/-- Modelled from the spec: `errs.IsAErrorMessageContains[T](err, message)` of package
`internal/errs`, which is not among the sources; the spec's "type assertions and string
matching": `errors.As` finds an error of type `T` and its `ErrorMessage()` contains `message`. -/
def errs.IsAErrorMessageContains (T : ErrorType) (err : GoError) (message : String) : Bool :=
  match errors.As err T with
  | some target => strings.Contains target.ErrorMessage message
  | none => false

/-! ## Package `internal/service/dynamodb` -/

/-- The type `aws.Ternary` of the AWS SDK. -/
inductive aws.Ternary where
  | UnknownTernary
  | FalseTernary
  | TrueTernary
  deriving DecidableEq, Repr

/-- The function literal that `servicePackage.NewClient` wraps in `retry.IsErrorRetryableFunc`
and adds to the configured retryer (service_package.go, lines 27 to 32). -/
def dynamodb.NewClient.isErrorRetryable (err : GoError) : aws.Ternary :=
  if errs.IsAErrorMessageContains .LimitExceededException err "Subscriber limit exceeded:" then
    .TrueTernary
  else
    .UnknownTernary -- Delegate to configured Retryer.

/-! ## Package `names` and the AWS SDK helpers -/

/-- Modelled from the spec: the constant `names.AttrARN` of package `names`, which is not among
the sources: the attribute key of a resource ARN. -/
def names.AttrARN : String := "arn"

/-- Modelled from the spec: the constant `names.AttrDescription` of package `names`, which is
not among the sources. -/
def names.AttrDescription : String := "description"

/-- Modelled from the spec: the constant `names.AttrID` of package `names`, which is not among
the sources. -/
def names.AttrID : String := "id"

/-- Modelled from the spec: the constant `names.AttrName` of package `names`, which is not among
the sources; the handlers read the same attribute as `d.Get("name")`. -/
def names.AttrName : String := "name"

/-- Modelled from the spec: the constant `names.AttrTags` of package `names`, which is not among
the sources; the update handler names the same attribute as "tags". -/
def names.AttrTags : String := "tags"

/-- Modelled from the spec: the constant `names.AttrTagsAll` of package `names`, which is not
among the sources; the update handler names the same attribute as "tags_all". -/
def names.AttrTagsAll : String := "tags_all"

/-- Modelled from the spec: the constant `names.CleanRooms` of package `names`, which is not
among the sources: the service name used in diagnostics. -/
def names.CleanRooms : String := "CleanRooms"

/-- Modelled from the spec: the constant `names.RUM` of package `names`, which is not among the
sources: the name of the RUM service package. -/
def names.RUM : String := "rum"

/-- The SDK helper `aws.ToString`: the string pointed to, or the empty string for nil. -/
def aws.ToString (p : Option String) : String := p.getD ""

/-- The SDK helper `aws.String`: a pointer to the given string. -/
def aws.String (v : String) : Option String := some v

/-- A `time.Time`, identified by the text its method `String()` prints, which is all the
handlers observe of it. -/
structure Time where
  rendering : String
  deriving DecidableEq, Repr

/-- The method `time.Time.String()`. -/
def Time.String (t : Time) : String := t.rendering

/-- The `context.Context` handed to every function; the provider keeps the configured tags of
the resource in it. -/
structure Context where
  tagsIn : List (String × String)
  deadline : Option Nat
  deriving DecidableEq, Repr

/-- Modelled from the spec: `getTagsIn(ctx)` of package cleanrooms (generated, not among the
sources): the tags that the context carries for the create request. -/
def cleanrooms.getTagsIn (ctx : Context) : List (String × String) := ctx.tagsIn

/-! ## SDK types of service/cleanrooms -/

/-- The struct `types.ConfiguredTableAssociation` of the AWS SDK; every member is a pointer. -/
structure types.ConfiguredTableAssociation where
  Arn : Option String
  ConfiguredTableArn : Option String
  ConfiguredTableId : Option String
  CreateTime : Option Time
  Id : Option String
  MembershipArn : Option String
  MembershipId : Option String
  Name : Option String
  RoleArn : Option String
  UpdateTime : Option Time
  Description : Option String
  deriving DecidableEq, Repr

/-- The struct `cleanrooms.GetConfiguredTableAssociationOutput`. -/
structure GetConfiguredTableAssociationOutput where
  ConfiguredTableAssociation : Option types.ConfiguredTableAssociation
  deriving DecidableEq, Repr

/-- The struct `cleanrooms.CreateConfiguredTableAssociationInput`. -/
structure CreateConfiguredTableAssociationInput where
  ConfiguredTableIdentifier : Option String
  MembershipIdentifier : Option String
  Name : Option String
  RoleArn : Option String
  Description : Option String
  Tags : List (String × String)
  deriving DecidableEq, Repr

/-- The struct `cleanrooms.CreateConfiguredTableAssociationOutput`. -/
structure CreateConfiguredTableAssociationOutput where
  ConfiguredTableAssociation : Option types.ConfiguredTableAssociation
  deriving DecidableEq, Repr

/-- The struct `cleanrooms.UpdateConfiguredTableAssociationInput`. It has no member for the
name of the association. -/
structure UpdateConfiguredTableAssociationInput where
  ConfiguredTableAssociationIdentifier : Option String
  MembershipIdentifier : Option String
  Description : Option String
  RoleArn : Option String
  deriving DecidableEq, Repr

/-- The struct `cleanrooms.UpdateConfiguredTableAssociationOutput`. -/
structure UpdateConfiguredTableAssociationOutput where
  ConfiguredTableAssociation : Option types.ConfiguredTableAssociation
  deriving DecidableEq, Repr

/-- The struct `cleanrooms.DeleteConfiguredTableAssociationInput`. -/
structure DeleteConfiguredTableAssociationInput where
  ConfiguredTableAssociationIdentifier : Option String
  MembershipIdentifier : Option String
  deriving DecidableEq, Repr

/-- The struct `cleanrooms.DeleteConfiguredTableAssociationOutput`, which has no data member. -/
structure DeleteConfiguredTableAssociationOutput where
  deriving DecidableEq, Repr

/-- The `*cleanrooms.Client`: for each operation the handlers use, what the call returns for a
request. -/
structure cleanrooms.Client where
  CreateConfiguredTableAssociation :
    CreateConfiguredTableAssociationInput → Option CreateConfiguredTableAssociationOutput × GoError
  GetConfiguredTableAssociation :
    GetConfiguredTableAssociationInput → Option GetConfiguredTableAssociationOutput × GoError
  UpdateConfiguredTableAssociation :
    UpdateConfiguredTableAssociationInput → Option UpdateConfiguredTableAssociationOutput × GoError
  DeleteConfiguredTableAssociation :
    DeleteConfiguredTableAssociationInput → Option DeleteConfiguredTableAssociationOutput × GoError

/-- The `*conns.AWSClient` that the handlers receive as `meta`. -/
structure conns.AWSClient where
  CleanRoomsClient : cleanrooms.Client

/-- One call of the Clean Rooms API, with the request it was given. -/
inductive ApiCall where
  | CreateConfiguredTableAssociation (input : CreateConfiguredTableAssociationInput)
  | GetConfiguredTableAssociation (input : GetConfiguredTableAssociationInput)
  | UpdateConfiguredTableAssociation (input : UpdateConfiguredTableAssociationInput)
  | DeleteConfiguredTableAssociation (input : DeleteConfiguredTableAssociationInput)
  deriving DecidableEq, Repr

/-! ## The plugin SDK: resource data and diagnostics -/

/-- The `*schema.ResourceData` of the plugin SDK, as the handlers see it: the resource ID, the
new-resource mark, and three levels of flat attribute maps: the prior state, the planned
changes, and what the handler has written with `Set`. Every attribute the handlers touch is a
string. -/
structure schema.ResourceData where
  id : String
  isNew : Bool
  state : List (String × String)
  diff : List (String × String)
  writes : List (String × String)
  deriving DecidableEq, Repr

/-- The method `d.Id()`. -/
def schema.ResourceData.Id (d : schema.ResourceData) : String := d.id

/-- The method `d.SetId(v)`. -/
def schema.ResourceData.SetId (d : schema.ResourceData) (v : String) : schema.ResourceData :=
  { d with id := v }

/-- The method `d.IsNewResource()`. -/
def schema.ResourceData.IsNewResource (d : schema.ResourceData) : Bool := d.isNew

/-- The value of a key read at the level of the prior state. -/
def schema.ResourceData.getState (d : schema.ResourceData) (key : String) : String :=
  (d.state.lookup key).getD ""

/-- The value of a key read at the level of the plan: the prior state overlaid by the diff. -/
def schema.ResourceData.getDiff (d : schema.ResourceData) (key : String) : String :=
  ((d.diff.lookup key).orElse fun _ => d.state.lookup key).getD ""

/-- The value of a key read through every level, `none` when no level has the key. -/
def schema.ResourceData.getRaw (d : schema.ResourceData) (key : String) : Option String :=
  ((d.writes.lookup key).orElse fun _ => d.diff.lookup key).orElse fun _ => d.state.lookup key

/-- The method `d.Get(key)` for a string attribute: the merged value, the zero value when the
attribute is not set. -/
def schema.ResourceData.Get (d : schema.ResourceData) (key : String) : String :=
  (d.getRaw key).getD ""

/-- The method `d.GetOk(key)` for a string attribute: the value, and whether it is set to
something other than the zero value. -/
def schema.ResourceData.GetOk (d : schema.ResourceData) (key : String) : String × Bool :=
  match d.getRaw key with
  | some v => (v, v != "")
  | none => ("", false)

/-- The method `d.Set(key, value)` for a string or a pointer to a string: a nil pointer writes
the empty string. The error `Set` returns is dropped, as the handlers drop it. -/
def schema.ResourceData.Set (d : schema.ResourceData) (key : String) (value : Option String) :
    schema.ResourceData :=
  { d with writes := (key, value.getD "") :: d.writes }

/-- What the SDK takes for the root of a flat attribute key: `strings.Split(attr, ".")[0]`. -/
def schema.rootAttr (attr : String) : String :=
  String.mk (attr.data.takeWhile fun c => c != '.')

/-- The method `d.HasChange(key)`: the old and the new value of the attribute differ, that is,
some flat key under `key` reads differently in the prior state and in the plan. -/
def schema.ResourceData.HasChange (d : schema.ResourceData) (key : String) : Bool :=
  (d.state.map Prod.fst ++ d.diff.map Prod.fst).any fun attr =>
    schema.rootAttr attr == key && d.getState attr != d.getDiff attr

/-- The method `d.HasChanges(keys...)`. -/
def schema.ResourceData.HasChanges (d : schema.ResourceData) (keys : List String) : Bool :=
  keys.any fun key => d.HasChange key

/-- The method `d.HasChangesExcept(keys...)`: some attribute of the diff whose root is not one
of `keys` has changed. -/
def schema.ResourceData.HasChangesExcept (d : schema.ResourceData) (keys : List String) : Bool :=
  (d.diff.map Prod.fst).any fun attr =>
    !(keys.contains (schema.rootAttr attr)) && d.HasChange (schema.rootAttr attr)

/-- The type `diag.Severity`. -/
inductive diag.Severity where
  | Error
  | Warning
  deriving DecidableEq, Repr

/-- The struct `diag.Diagnostic`; `Cause` keeps the error whose text ends the summary. -/
structure diag.Diagnostic where
  Severity : diag.Severity
  Summary : String
  Cause : GoError
  deriving DecidableEq, Repr

/-- The type `diag.Diagnostics`; the nil slice is the empty list. -/
abbrev diag.Diagnostics := List diag.Diagnostic

/-- Modelled from the spec: the constants `create.ErrActionCreating`, `ErrActionReading`,
`ErrActionUpdating` and `ErrActionDeleting` of package `internal/create`, which is not among the
sources. -/
def create.ErrActionCreating : String := "creating"

/-- Modelled from the spec: see `create.ErrActionCreating`. -/
def create.ErrActionReading : String := "reading"

/-- Modelled from the spec: see `create.ErrActionCreating`. -/
def create.ErrActionUpdating : String := "updating"

/-- Modelled from the spec: see `create.ErrActionCreating`. -/
def create.ErrActionDeleting : String := "deleting"

/-- Modelled from the spec: `create.DiagError(service, action, resource, id, gotError)` of
package `internal/create`, which is not among the sources; the spec's "map error to Terraform
diagnostic": one diagnostic of severity Error that names the action, the service, the resource
and its id, and reports the error. -/
def create.DiagError (service action resource id : String) (gotError : GoError) :
    diag.Diagnostics :=
  [{ Severity := .Error
     Summary := action ++ " " ++ service ++ " " ++ resource ++ " (" ++ id ++ ")"
     Cause := gotError }]

/-- Go's `errors.New(text)`. -/
def errors.New (text : String) : GoError := .errorString text

/-! ## Package `internal/tfresource` -/

/-- Modelled from the spec: `tfresource.NewEmptyResultError(lastRequest)` of package
`internal/tfresource`, which is not among the sources: the error of an empty result, which
remembers the request. -/
def tfresource.NewEmptyResultError (lastRequest : Option GetConfiguredTableAssociationInput) :
    GoError :=
  .EmptyResultError lastRequest

/-- Modelled from the spec: `tfresource.NotFound(err)` of package `internal/tfresource`, which
is not among the sources: whether `errors.As` finds a `*retry.NotFoundError` for `err`. -/
def tfresource.NotFound (err : GoError) : Bool :=
  (errors.As err .NotFoundError).isSome

/-! ## Package `internal/service/cleanrooms` -/

/-- How a handler ends: it returns diagnostics (`nil` is the empty list), or it dereferences a
nil pointer and panics. -/
inductive Outcome where
  | returned (diags : diag.Diagnostics)
  | nilPointerPanic
  deriving DecidableEq, Repr

/-- Go's `append(diags, more...)` applied to what a called handler returned; a panic of the
called handler is a panic of the caller. -/
def Outcome.appendTo (diags : diag.Diagnostics) : Outcome → Outcome
  | .returned more => .returned (diags ++ more)
  | .nilPointerPanic => .nilPointerPanic

/-- One run of a handler: the resource data it leaves, the API calls it made, and how it
ended. -/
structure HandlerRun where
  d : schema.ResourceData
  calls : List ApiCall
  outcome : Outcome
  deriving DecidableEq, Repr

/-- The function `findConfiguredTableAssociationByID` of find.go. The first component is the
pair `(out, err)` it returns, the second the API calls it made. -/
def cleanrooms.findConfiguredTableAssociationByID (_ctx : Context) (conn : cleanrooms.Client)
    (id : String) : (Option GetConfiguredTableAssociationOutput × GoError) × List ApiCall :=
  let input : GetConfiguredTableAssociationInput :=
    { ConfiguredTableAssociationIdentifier := aws.String id
      MembershipIdentifier := none }
  let (out, err) := conn.GetConfiguredTableAssociation input
  let calls := [ApiCall.GetConfiguredTableAssociation input]
  if errs.IsA .AccessDeniedException err then
    ((none, .NotFoundError err (some input) ""), calls)
  else if err ≠ .nil then
    ((none, err), calls)
  else
    match out with
    | none => ((none, tfresource.NewEmptyResultError (some input)), calls)
    | some o =>
      match o.ConfiguredTableAssociation with
      | none => ((none, tfresource.NewEmptyResultError (some input)), calls)
      | some _ => ((some o, .nil), calls)

/-- The constant `ResNameConfiguredTableAssociation`. -/
def cleanrooms.ResNameConfiguredTableAssociation : String := "Configured Table Association"

/-- The handler `resourceConfiguredTableAssociationCreate`. -/
def cleanrooms.resourceConfiguredTableAssociationCreate (ctx : Context)
    (d : schema.ResourceData) (meta : conns.AWSClient) : HandlerRun :=
  let conn := meta.CleanRoomsClient
  let input : CreateConfiguredTableAssociationInput :=
    { Name := aws.String (d.Get names.AttrName)
      MembershipIdentifier := aws.String (d.Get "membership_identifier")
      ConfiguredTableIdentifier := aws.String (d.Get "configured_table_identifier")
      RoleArn := aws.String (d.Get "role_arn")
      Description := none
      Tags := cleanrooms.getTagsIn ctx }
  let input :=
    match d.GetOk names.AttrDescription with
    | (v, true) => { input with Description := aws.String v }
    | (_, false) => input
  let (out, err) := conn.CreateConfiguredTableAssociation input
  let calls := [ApiCall.CreateConfiguredTableAssociation input]
  if err ≠ .nil then
    { d := d
      calls := calls
      outcome := .returned (create.DiagError names.CleanRooms create.ErrActionCreating
        cleanrooms.ResNameConfiguredTableAssociation (d.Get "name") err) }
  else
    match out.bind fun o => o.ConfiguredTableAssociation with
    | none =>
      { d := d
        calls := calls
        outcome := .returned (create.DiagError names.CleanRooms create.ErrActionCreating
          cleanrooms.ResNameConfiguredTableAssociation (d.Get "name")
          (errors.New "empty output")) }
    | some configuredTableAssociation =>
      { d := d.SetId (aws.ToString configuredTableAssociation.Id)
        calls := calls
        outcome := .returned [] }

/-- The handler `resourceConfiguredTableAssociationRead`. The log line it prints is not part of
the run. -/
def cleanrooms.resourceConfiguredTableAssociationRead (ctx : Context)
    (d : schema.ResourceData) (meta : conns.AWSClient) : HandlerRun :=
  let conn := meta.CleanRoomsClient
  let found := cleanrooms.findConfiguredTableAssociationByID ctx conn d.Id
  let out := found.1.1
  let err := found.1.2
  let calls := found.2
  if !d.IsNewResource && tfresource.NotFound err then
    { d := d.SetId "", calls := calls, outcome := .returned [] }
  else if err ≠ .nil then
    { d := d
      calls := calls
      outcome := .returned (create.DiagError names.CleanRooms create.ErrActionReading
        cleanrooms.ResNameConfiguredTableAssociation d.Id err) }
  else
    match out.bind fun o => o.ConfiguredTableAssociation with
    | none => { d := d, calls := calls, outcome := .nilPointerPanic }
    | some configuredTableAssociation =>
      let d := d.Set names.AttrARN configuredTableAssociation.Arn
      let d := d.Set names.AttrName configuredTableAssociation.Name
      let d := d.Set names.AttrDescription configuredTableAssociation.Description
      match configuredTableAssociation.CreateTime with
      | none => { d := d, calls := calls, outcome := .nilPointerPanic }
      | some createTime =>
        let d := d.Set "create_time" (some createTime.String)
        match configuredTableAssociation.UpdateTime with
        | none => { d := d, calls := calls, outcome := .nilPointerPanic }
        | some updateTime =>
          let d := d.Set "update_time" (some updateTime.String)
          let d := d.Set "membership_identifier" configuredTableAssociation.MembershipId
          { d := d, calls := calls, outcome := .returned [] }

/-- The handler `resourceConfiguredTableAssociationUpdate`. -/
def cleanrooms.resourceConfiguredTableAssociationUpdate (ctx : Context)
    (d : schema.ResourceData) (meta : conns.AWSClient) : HandlerRun :=
  let diags : diag.Diagnostics := []
  let conn := meta.CleanRoomsClient
  if d.HasChangesExcept ["tags", "tags_all"] then
    let input : UpdateConfiguredTableAssociationInput :=
      { ConfiguredTableAssociationIdentifier := aws.String d.Id
        MembershipIdentifier := none
        Description := none
        RoleArn := none }
    let input :=
      if d.HasChanges [names.AttrDescription] then
        { input with Description := aws.String (d.Get names.AttrDescription) }
      else
        input
    let (_, err) := conn.UpdateConfiguredTableAssociation input
    if err ≠ .nil then
      { d := d
        calls := [ApiCall.UpdateConfiguredTableAssociation input]
        outcome := .returned (create.DiagError names.CleanRooms create.ErrActionUpdating
          cleanrooms.ResNameConfiguredTableAssociation d.Id err) }
    else
      let read := cleanrooms.resourceConfiguredTableAssociationRead ctx d meta
      { d := read.d
        calls := ApiCall.UpdateConfiguredTableAssociation input :: read.calls
        outcome := read.outcome.appendTo diags }
  else
    let read := cleanrooms.resourceConfiguredTableAssociationRead ctx d meta
    { d := read.d, calls := read.calls, outcome := read.outcome.appendTo diags }

/-- The handler `resourceConfiguredTableAssociationDelete`. The log line it prints is not part
of the run. -/
def cleanrooms.resourceConfiguredTableAssociationDelete (_ctx : Context)
    (d : schema.ResourceData) (meta : conns.AWSClient) : HandlerRun :=
  let conn := meta.CleanRoomsClient
  let input : DeleteConfiguredTableAssociationInput :=
    { ConfiguredTableAssociationIdentifier := aws.String d.Id
      MembershipIdentifier := none }
  let (_, err) := conn.DeleteConfiguredTableAssociation input
  let calls := [ApiCall.DeleteConfiguredTableAssociation input]
  if errs.IsA .AccessDeniedException err then
    { d := d, calls := calls, outcome := .returned [] }
  else if err ≠ .nil then
    { d := d
      calls := calls
      outcome := .returned (create.DiagError names.CleanRooms create.ErrActionDeleting
        cleanrooms.ResNameConfiguredTableAssociation d.Id err) }
  else
    { d := d, calls := calls, outcome := .returned [] }

/-- The type `schema.ValueType`, as far as the schema of the resource uses it. -/
inductive schema.ValueType where
  | TypeString
  | TypeMap
  deriving DecidableEq, Repr

/-- The struct `schema.Schema`, as far as the schema of the resource uses it; `ValueType` is
the member the SDK calls `Type`. -/
structure schema.Schema where
  ValueType : schema.ValueType
  Optional : Bool := false
  Required : Bool := false
  Computed : Bool := false
  ForceNew : Bool := false
  deriving DecidableEq, Repr

/-- Modelled from the spec: `tftags.TagsSchema()` of package `internal/tags`, which is not among
the sources: the optional map of tags. -/
def tftags.TagsSchema : schema.Schema :=
  { ValueType := .TypeMap, Optional := true }

/-- Modelled from the spec: `tftags.TagsSchemaComputed()` of package `internal/tags`, which is
not among the sources: the optional, computed map of all tags. -/
def tftags.TagsSchemaComputed : schema.Schema :=
  { ValueType := .TypeMap, Optional := true, Computed := true }

/-- The struct `schema.ResourceTimeout`, in minutes. -/
structure schema.ResourceTimeout where
  Create : Nat
  Update : Nat
  Delete : Nat
  deriving DecidableEq, Repr

/-- The struct `schema.Resource`, as far as `ResourceConfiguredTableAssociation` fills it; the
importer and the diff customisation belong to the plugin SDK and to package verify. -/
structure schema.Resource where
  CreateWithoutTimeout : Context → schema.ResourceData → conns.AWSClient → HandlerRun
  ReadWithoutTimeout : Context → schema.ResourceData → conns.AWSClient → HandlerRun
  UpdateWithoutTimeout : Context → schema.ResourceData → conns.AWSClient → HandlerRun
  DeleteWithoutTimeout : Context → schema.ResourceData → conns.AWSClient → HandlerRun
  Timeouts : schema.ResourceTimeout
  Schema : List (String × schema.Schema)

/-- The function `ResourceConfiguredTableAssociation`: the resource with its handlers and its
schema, the attributes in the order of the source. -/
def cleanrooms.ResourceConfiguredTableAssociation : schema.Resource :=
  { CreateWithoutTimeout := cleanrooms.resourceConfiguredTableAssociationCreate
    ReadWithoutTimeout := cleanrooms.resourceConfiguredTableAssociationRead
    UpdateWithoutTimeout := cleanrooms.resourceConfiguredTableAssociationUpdate
    DeleteWithoutTimeout := cleanrooms.resourceConfiguredTableAssociationDelete
    Timeouts := { Create := 2, Update := 2, Delete := 2 }
    Schema :=
      [ (names.AttrARN, { ValueType := .TypeString, Computed := true }),
        ("create_time", { ValueType := .TypeString, Computed := true }),
        (names.AttrDescription, { ValueType := .TypeString, Optional := true }),
        (names.AttrTags, tftags.TagsSchema),
        (names.AttrTagsAll, tftags.TagsSchemaComputed),
        ("update_time", { ValueType := .TypeString, Computed := true }),
        (names.AttrID, { ValueType := .TypeString, Computed := true }),
        (names.AttrName, { ValueType := .TypeString, Required := true }),
        ("membership_identifier", { ValueType := .TypeString, Required := true, ForceNew := true }),
        ("configured_table_identifier",
          { ValueType := .TypeString, Required := true, ForceNew := true }),
        ("role_arn", { ValueType := .TypeString, Required := true, ForceNew := true }) ] }

/-- The attributes of a schema that an update can change in place: neither ForceNew, nor
computed, nor one of the two tag attributes. -/
def schema.inPlaceUpdatable (attrs : List (String × schema.Schema)) : List String :=
  (attrs.filter fun kv =>
    !kv.2.ForceNew && !kv.2.Computed && kv.1 != names.AttrTags && kv.1 != names.AttrTagsAll).map
    Prod.fst

/-! ## The client that the AWS SDK builds -/

/-- The error with which the AWS SDK answers a request that lacks a required member: an
operation error around the list of the missing members. It has none of the types that the
packages ask `errors.As` for. -/
def cleanrooms.validationError (operation : String) : GoError :=
  .wrapError ("operation error CleanRooms: " ++ operation)
    (.errorString "validation error(s) found")

/-- The `*cleanrooms.Client` of the AWS SDK in front of an endpoint that answers as `service`
does. Before the SDK sends a request it validates it: a request in which a required member is
nil comes back with a validation error and never reaches the endpoint. Required are both
identifiers of the get, update and delete requests, and the name, the two identifiers and the
role ARN of the create request. -/
def cleanrooms.sdkClient (service : cleanrooms.Client) : cleanrooms.Client :=
  { CreateConfiguredTableAssociation := fun input =>
      if input.ConfiguredTableIdentifier.isNone || input.MembershipIdentifier.isNone ||
          input.Name.isNone || input.RoleArn.isNone then
        (none, cleanrooms.validationError "CreateConfiguredTableAssociation")
      else
        service.CreateConfiguredTableAssociation input
    GetConfiguredTableAssociation := fun input =>
      if input.ConfiguredTableAssociationIdentifier.isNone ||
          input.MembershipIdentifier.isNone then
        (none, cleanrooms.validationError "GetConfiguredTableAssociation")
      else
        service.GetConfiguredTableAssociation input
    UpdateConfiguredTableAssociation := fun input =>
      if input.ConfiguredTableAssociationIdentifier.isNone ||
          input.MembershipIdentifier.isNone then
        (none, cleanrooms.validationError "UpdateConfiguredTableAssociation")
      else
        service.UpdateConfiguredTableAssociation input
    DeleteConfiguredTableAssociation := fun input =>
      if input.ConfiguredTableAssociationIdentifier.isNone ||
          input.MembershipIdentifier.isNone then
        (none, cleanrooms.validationError "DeleteConfiguredTableAssociation")
      else
        service.DeleteConfiguredTableAssociation input }

/-! ## Package `internal/service/rum` -/

/-- A Go slice: `none` is the nil slice, `some l` a slice with the elements `l`. -/
abbrev GoSlice (α : Type) := Option (List α)

/-- The resource constructors of package rum that the registry names; their bodies are in other
files of the package. -/
inductive rum.ResourceFactory where
  | ResourceAppMonitor
  | ResourceMetricsDestination
  deriving DecidableEq, Repr

/-- The struct `types.ServicePackageResourceTags`. -/
structure types.ServicePackageResourceTags where
  IdentifierAttribute : String
  ResourceType : String := ""
  deriving DecidableEq, Repr

/-- The struct `types.ServicePackageSDKResource`; a nil `Factory` or `Tags` is `none`, and a
member the literal leaves out has its zero value. -/
structure types.ServicePackageSDKResource where
  Factory : Option rum.ResourceFactory := none
  TypeName : String := ""
  Name : String := ""
  Tags : Option types.ServicePackageResourceTags := none
  deriving DecidableEq, Repr

/-- The struct `types.ServicePackageSDKDataSource`. -/
structure types.ServicePackageSDKDataSource where
  Factory : Option rum.ResourceFactory := none
  TypeName : String := ""
  Name : String := ""
  Tags : Option types.ServicePackageResourceTags := none
  deriving DecidableEq, Repr

/-- The struct `types.ServicePackageFrameworkDataSource`. -/
structure types.ServicePackageFrameworkDataSource where
  Factory : Option rum.ResourceFactory := none
  Name : String := ""
  Tags : Option types.ServicePackageResourceTags := none
  deriving DecidableEq, Repr

/-- The struct `types.ServicePackageFrameworkResource`. -/
structure types.ServicePackageFrameworkResource where
  Factory : Option rum.ResourceFactory := none
  Name : String := ""
  Tags : Option types.ServicePackageResourceTags := none
  deriving DecidableEq, Repr

/-- The type `servicePackage` of package rum, an empty struct. -/
structure rum.servicePackage where
  deriving DecidableEq, Repr

/-- The method `FrameworkDataSources`. -/
def rum.servicePackage.FrameworkDataSources (_p : rum.servicePackage) (_ctx : Context) :
    GoSlice types.ServicePackageFrameworkDataSource :=
  some []

/-- The method `FrameworkResources`. -/
def rum.servicePackage.FrameworkResources (_p : rum.servicePackage) (_ctx : Context) :
    GoSlice types.ServicePackageFrameworkResource :=
  some []

/-- The method `SDKDataSources`. -/
def rum.servicePackage.SDKDataSources (_p : rum.servicePackage) (_ctx : Context) :
    GoSlice types.ServicePackageSDKDataSource :=
  some []

/-- The method `SDKResources`. -/
def rum.servicePackage.SDKResources (_p : rum.servicePackage) (_ctx : Context) :
    GoSlice types.ServicePackageSDKResource :=
  some
    [ { Factory := some .ResourceAppMonitor
        TypeName := "aws_rum_app_monitor"
        Name := "App Monitor"
        Tags := some { IdentifierAttribute := names.AttrARN } },
      { Factory := some .ResourceMetricsDestination
        TypeName := "aws_rum_metrics_destination" } ]

/-- The method `ServicePackageName`. -/
def rum.servicePackage.ServicePackageName (_p : rum.servicePackage) : String :=
  names.RUM

/-- The function `ServicePackage` of package rum. -/
def rum.ServicePackage (_ctx : Context) : rum.servicePackage :=
  {}

/-- The claim's words for the retryable case: `err` is, or wraps, a `LimitExceededException`
whose message contains `substr`. -/
def WrapsLimitExceededWithMessage (err : GoError) (substr : String) : Prop :=
  ∃ m : Option String, GoError.LimitExceededException m ∈ err.chain ∧
    ∃ before after : List Char, (m.getD "").data = before ++ substr.data ++ after

/-- The claim's words for access denied: `err` is, or wraps, an `AccessDeniedException`. -/
def WrapsAccessDenied (err : GoError) : Prop :=
  ∃ m : Option String, GoError.AccessDeniedException m ∈ err.chain

/-- The request that the finder builds from an id. -/
def cleanrooms.getRequestOf (id : String) : GetConfiguredTableAssociationInput :=
  { ConfiguredTableAssociationIdentifier := some id, MembershipIdentifier := none }

/-! ## Sample values -/

/-- A context without tags. -/
def sampleContext : Context := { tagsIn := [], deadline := none }

/-- An association as the service describes it, with every member present. -/
def sampleAssociation : types.ConfiguredTableAssociation :=
  { Arn := some "arn:aws:cleanrooms:us-east-1:123456789012:membership/m-1/cta/cta-1"
    ConfiguredTableArn := some "arn:aws:cleanrooms:us-east-1:123456789012:configuredtable/t-1"
    ConfiguredTableId := some "t-1"
    CreateTime := some { rendering := "2024-01-01 00:00:00 +0000 UTC" }
    Id := some "cta-1"
    MembershipArn := some "arn:aws:cleanrooms:us-east-1:123456789012:membership/m-1"
    MembershipId := some "m-1"
    Name := some "orders"
    RoleArn := some "arn:aws:iam::123456789012:role/r"
    UpdateTime := some { rendering := "2024-01-02 00:00:00 +0000 UTC" }
    Description := some "first" }

/-- A client whose four operations return the given results, whatever the request. -/
def sampleClient
    (created : Option CreateConfiguredTableAssociationOutput × GoError)
    (got : Option GetConfiguredTableAssociationOutput × GoError)
    (updated deleted : GoError) : conns.AWSClient :=
  { CleanRoomsClient :=
      { CreateConfiguredTableAssociation := fun _ => created
        GetConfiguredTableAssociation := fun _ => got
        UpdateConfiguredTableAssociation := fun _ => (none, updated)
        DeleteConfiguredTableAssociation := fun _ => (none, deleted) } }

/-- The data of an existing resource whose plan changes nothing. -/
def sampleData : schema.ResourceData :=
  { id := "cta-1"
    isNew := false
    state :=
      [ ("name", "orders"), ("description", "first"), ("membership_identifier", "m-1"),
        ("configured_table_identifier", "t-1"), ("role_arn", "arn:aws:iam::123456789012:role/r") ]
    diff := []
    writes := [] }

/-- A client that answers every lookup with an AccessDeniedException inside an operation
error. -/
def deniedClient : conns.AWSClient :=
  sampleClient (none, .nil)
    (none, .wrapError "operation error CleanRooms: GetConfiguredTableAssociation"
      (.AccessDeniedException (some "not authorized")))
    .nil .nil

/-- A client whose lookup succeeds with the given association. -/
def foundClient (association : types.ConfiguredTableAssociation) : conns.AWSClient :=
  sampleClient (none, .nil) (some { ConfiguredTableAssociation := some association }, .nil)
    .nil .nil

/-- The data of an existing resource whose plan renames it and changes nothing else. -/
def renamedData : schema.ResourceData :=
  { sampleData with diff := [("name", "customers")] }

/-- The data of an existing resource whose plan changes its description. -/
def redescribedData : schema.ResourceData :=
  { sampleData with diff := [("description", "second")] }

/-- A client whose create call succeeds with the given association. -/
def createdClient (association : types.ConfiguredTableAssociation) : conns.AWSClient :=
  sampleClient (some { ConfiguredTableAssociation := some association }, .nil) (none, .nil)
    .nil .nil

/-- A client whose update call fails while its lookup would succeed. -/
def failingUpdateClient : conns.AWSClient :=
  sampleClient (none, .nil) (some { ConfiguredTableAssociation := some sampleAssociation }, .nil)
    (.errorString "ThrottlingException: rate exceeded") .nil

/-- A client whose delete call is answered with an AccessDeniedException inside an operation
error. -/
def deniedDeleteClient : conns.AWSClient :=
  sampleClient (none, .nil) (none, .nil) .nil
    (.wrapError "operation error CleanRooms: DeleteConfiguredTableAssociation"
      (.AccessDeniedException (some "not authorized")))

/-! ## Properties -/

theorem strings.startsWithChars_iff (s p : List Char) :
    strings.startsWithChars s p = true ↔ ∃ after, s = p ++ after := by
  induction p generalizing s with
  | nil => cases s <;> simp [strings.startsWithChars]
  | cons x xs ih =>
    cases s with
    | nil => simp [strings.startsWithChars]
    | cons c cs =>
      simp only [strings.startsWithChars, Bool.and_eq_true, beq_iff_eq, ih, List.cons_append,
        List.cons.injEq]
      constructor
      · rintro ⟨rfl, after, rfl⟩
        exact ⟨after, rfl, rfl⟩
      · rintro ⟨after, rfl, rfl⟩
        exact ⟨rfl, after, rfl⟩

theorem strings.containsChars_iff (s sub : List Char) :
    strings.containsChars s sub = true ↔ ∃ before after, s = before ++ sub ++ after := by
  induction s with
  | nil =>
    simp only [strings.containsChars, List.isEmpty_iff]
    constructor
    · rintro rfl
      exact ⟨[], [], rfl⟩
    · rintro ⟨before, after, h⟩
      have h1 := congrArg List.length h
      simp only [List.length_nil, List.length_append] at h1
      exact List.length_eq_zero.mp (by omega)
  | cons c cs ih =>
    simp only [strings.containsChars, Bool.or_eq_true, strings.startsWithChars_iff, ih]
    constructor
    · rintro (⟨after, h⟩ | ⟨before, after, h⟩)
      · exact ⟨[], after, by simpa using h⟩
      · exact ⟨c :: before, after, by simp [h]⟩
    · rintro ⟨before, after, h⟩
      cases before with
      | nil => exact Or.inl ⟨after, by simpa using h⟩
      | cons b bs =>
        simp only [List.cons_append, List.cons.injEq] at h
        exact Or.inr ⟨bs, after, h.2⟩

theorem strings.Contains_iff (s substr : String) :
    strings.Contains s substr = true ↔
      ∃ before after : List Char, s.data = before ++ substr.data ++ after :=
  strings.containsChars_iff s.data substr.data

/-- What `errors.As` finds for the type `LimitExceededException`: the one such exception of the
chain, if there is one. -/
theorem errors.As_limitExceeded (err : GoError) :
    (∀ target, errors.As err .LimitExceededException = some target →
        ∃ m, target = .LimitExceededException m ∧ GoError.LimitExceededException m ∈ err.chain) ∧
    (∀ m, GoError.LimitExceededException m ∈ err.chain →
        errors.As err .LimitExceededException = some (.LimitExceededException m)) := by
  induction err with
  | nil => simp [errors.As, GoError.chain]
  | AccessDeniedException m => simp [errors.As, GoError.chain]
  | LimitExceededException m =>
    simp only [errors.As, GoError.chain, if_true, Option.some.injEq, List.mem_singleton,
      GoError.LimitExceededException.injEq]
    exact ⟨fun target h => ⟨m, h.symm, rfl⟩, fun m2 h => by rw [h]⟩
  | NotFoundError last req msg ih => simpa [errors.As, GoError.chain] using ih
  | EmptyResultError req => simp [errors.As, GoError.chain]
  | errorString s => simp [errors.As, GoError.chain]
  | wrapError msg err ih => simpa [errors.As, GoError.chain] using ih

theorem dynamodb.isErrorRetryable_true_iff (err : GoError) :
    dynamodb.NewClient.isErrorRetryable err = .TrueTernary ↔
      WrapsLimitExceededWithMessage err "Subscriber limit exceeded:" := by
  unfold dynamodb.NewClient.isErrorRetryable errs.IsAErrorMessageContains
    WrapsLimitExceededWithMessage
  have hAs := errors.As_limitExceeded err
  cases hres : errors.As err .LimitExceededException with
  | none =>
    simp only [Bool.false_eq_true, if_false, reduceCtorEq, false_iff, not_exists, not_and]
    intro m hm
    rw [hAs.2 m hm] at hres
    cases hres
  | some target =>
    obtain ⟨m, rfl, hm⟩ := hAs.1 target hres
    simp only [GoError.ErrorMessage]
    constructor
    · intro h
      by_cases hc : strings.Contains (m.getD "") "Subscriber limit exceeded:" = true
      · exact ⟨m, hm, (strings.Contains_iff _ _).mp hc⟩
      · simp [hc] at h
    · rintro ⟨m2, hm2, hsub⟩
      have := hAs.2 m2 hm2
      rw [hres] at this
      cases this
      simp [(strings.Contains_iff _ _).mpr hsub]

/-- C1: the retry classifier that the DynamoDB client installs returns `aws.TrueTernary` exactly
when the error is, or wraps, a `LimitExceededException` whose message contains
"Subscriber limit exceeded:"; on every other error, nil included, it returns
`aws.UnknownTernary`; it never returns `aws.FalseTernary`. -/
theorem dynamodb_retry_classifier (err : GoError) :
    (dynamodb.NewClient.isErrorRetryable err = .TrueTernary ↔
      WrapsLimitExceededWithMessage err "Subscriber limit exceeded:") ∧
    (dynamodb.NewClient.isErrorRetryable err = .UnknownTernary ↔
      ¬ WrapsLimitExceededWithMessage err "Subscriber limit exceeded:") ∧
    dynamodb.NewClient.isErrorRetryable err ≠ .FalseTernary := by
  have htrue := dynamodb.isErrorRetryable_true_iff err
  have hcases : dynamodb.NewClient.isErrorRetryable err = .TrueTernary ∨
      dynamodb.NewClient.isErrorRetryable err = .UnknownTernary := by
    unfold dynamodb.NewClient.isErrorRetryable
    split <;> simp
  refine ⟨htrue, ?_, ?_⟩
  · rw [← htrue]
    rcases hcases with h | h <;> simp [h]
  · rcases hcases with h | h <;> simp [h]

/-! ### Errors -/

theorem errs.IsA_accessDenied_iff (err : GoError) :
    errs.IsA .AccessDeniedException err = true ↔ WrapsAccessDenied err := by
  unfold errs.IsA WrapsAccessDenied
  induction err with
  | nil => simp [errors.As, GoError.chain]
  | AccessDeniedException m => simp [errors.As, GoError.chain]
  | LimitExceededException m => simp [errors.As, GoError.chain]
  | NotFoundError last req msg ih => simpa [errors.As, GoError.chain] using ih
  | EmptyResultError req => simp [errors.As, GoError.chain]
  | errorString s => simp [errors.As, GoError.chain]
  | wrapError msg err ih => simpa [errors.As, GoError.chain] using ih

theorem errs.IsA_nil (T : ErrorType) : errs.IsA T .nil = false := by
  simp [errs.IsA, errors.As]

theorem WrapsAccessDenied_nil : ¬ WrapsAccessDenied .nil := by
  simp [WrapsAccessDenied, GoError.chain]

theorem tfresource.NotFound_nil : tfresource.NotFound .nil = false := by
  simp [tfresource.NotFound, errors.As]

theorem tfresource.NotFound_notFoundError (last : GoError)
    (req : Option GetConfiguredTableAssociationInput) (msg : String) :
    tfresource.NotFound (.NotFoundError last req msg) = true := by
  simp [tfresource.NotFound, errors.As]

theorem tfresource.NotFound_emptyResult (req : Option GetConfiguredTableAssociationInput) :
    tfresource.NotFound (tfresource.NewEmptyResultError req) = true := by
  simp [tfresource.NotFound, tfresource.NewEmptyResultError, errors.As]

/-! ### The finder -/

theorem cleanrooms.find_of_response (ctx : Context) (conn : cleanrooms.Client) (id : String)
    (out : Option GetConfiguredTableAssociationOutput) (err : GoError)
    (h : conn.GetConfiguredTableAssociation (cleanrooms.getRequestOf id) = (out, err)) :
    cleanrooms.findConfiguredTableAssociationByID ctx conn id =
      (if errs.IsA .AccessDeniedException err then
        (none, GoError.NotFoundError err (some (cleanrooms.getRequestOf id)) "")
      else if err ≠ .nil then (none, err)
      else
        match out with
        | none => (none, tfresource.NewEmptyResultError (some (cleanrooms.getRequestOf id)))
        | some o =>
          match o.ConfiguredTableAssociation with
          | none => (none, tfresource.NewEmptyResultError (some (cleanrooms.getRequestOf id)))
          | some _ => (some o, .nil),
       [ApiCall.GetConfiguredTableAssociation (cleanrooms.getRequestOf id)]) := by
  have e : conn.GetConfiguredTableAssociation
      { ConfiguredTableAssociationIdentifier := aws.String id, MembershipIdentifier := none } =
      (out, err) := h
  unfold cleanrooms.findConfiguredTableAssociationByID
  simp only [e]
  unfold cleanrooms.getRequestOf aws.String
  split <;> [rfl; skip]
  split <;> [rfl; skip]
  split <;> [rfl; skip]
  split <;> rfl

theorem cleanrooms.find_calls (ctx : Context) (conn : cleanrooms.Client) (id : String) :
    (cleanrooms.findConfiguredTableAssociationByID ctx conn id).2 =
      [ApiCall.GetConfiguredTableAssociation (cleanrooms.getRequestOf id)] := by
  rw [cleanrooms.find_of_response ctx conn id _ _ rfl]

theorem cleanrooms.find_accessDenied (ctx : Context) (conn : cleanrooms.Client) (id : String)
    (h : WrapsAccessDenied (conn.GetConfiguredTableAssociation (cleanrooms.getRequestOf id)).2) :
    (cleanrooms.findConfiguredTableAssociationByID ctx conn id).1 =
      (none, .NotFoundError (conn.GetConfiguredTableAssociation (cleanrooms.getRequestOf id)).2
        (some (cleanrooms.getRequestOf id)) "") := by
  rw [cleanrooms.find_of_response ctx conn id _ _ rfl]
  simp only [(errs.IsA_accessDenied_iff _).mpr h, if_true]

theorem cleanrooms.find_otherError (ctx : Context) (conn : cleanrooms.Client) (id : String)
    (h : ¬ WrapsAccessDenied (conn.GetConfiguredTableAssociation (cleanrooms.getRequestOf id)).2)
    (hne : (conn.GetConfiguredTableAssociation (cleanrooms.getRequestOf id)).2 ≠ .nil) :
    (cleanrooms.findConfiguredTableAssociationByID ctx conn id).1 =
      (none, (conn.GetConfiguredTableAssociation (cleanrooms.getRequestOf id)).2) := by
  have hA : ¬ errs.IsA .AccessDeniedException
      (conn.GetConfiguredTableAssociation (cleanrooms.getRequestOf id)).2 = true :=
    fun hc => h ((errs.IsA_accessDenied_iff _).mp hc)
  rw [cleanrooms.find_of_response ctx conn id _ _ rfl]
  simp only [if_neg hA, if_pos hne]

theorem cleanrooms.find_noError (ctx : Context) (conn : cleanrooms.Client) (id : String)
    (hnil : (conn.GetConfiguredTableAssociation (cleanrooms.getRequestOf id)).2 = .nil) :
    (cleanrooms.findConfiguredTableAssociationByID ctx conn id).1 =
      match (conn.GetConfiguredTableAssociation (cleanrooms.getRequestOf id)).1 with
      | none => (none, tfresource.NewEmptyResultError (some (cleanrooms.getRequestOf id)))
      | some o =>
        match o.ConfiguredTableAssociation with
        | none => (none, tfresource.NewEmptyResultError (some (cleanrooms.getRequestOf id)))
        | some _ => (some o, .nil) := by
  rw [cleanrooms.find_of_response ctx conn id _ _ rfl]
  simp only [hnil, errs.IsA_nil, Bool.false_eq_true, if_false, ne_eq, not_true_eq_false]

/-- C2: the finder classifies what GetConfiguredTableAssociation returns for the request built
from the id, in this order: an error that is, or wraps, an AccessDeniedException becomes a
NotFoundError with that error as LastError and the request as LastRequest; any other error is
returned unchanged; without an error, a nil output or a nil association becomes the
empty-result error of the request; otherwise the output is returned unchanged with a nil error.
Exactly one of the returned output and error is non-nil. -/
theorem findConfiguredTableAssociationByID_classifies (ctx : Context) (conn : cleanrooms.Client)
    (id : String) :
    (WrapsAccessDenied (conn.GetConfiguredTableAssociation (cleanrooms.getRequestOf id)).2 →
      (cleanrooms.findConfiguredTableAssociationByID ctx conn id).1 =
        (none, .NotFoundError (conn.GetConfiguredTableAssociation (cleanrooms.getRequestOf id)).2
          (some (cleanrooms.getRequestOf id)) "")) ∧
    (¬ WrapsAccessDenied (conn.GetConfiguredTableAssociation (cleanrooms.getRequestOf id)).2 →
      (conn.GetConfiguredTableAssociation (cleanrooms.getRequestOf id)).2 ≠ .nil →
      (cleanrooms.findConfiguredTableAssociationByID ctx conn id).1 =
        (none, (conn.GetConfiguredTableAssociation (cleanrooms.getRequestOf id)).2)) ∧
    ((conn.GetConfiguredTableAssociation (cleanrooms.getRequestOf id)).2 = .nil →
      ((conn.GetConfiguredTableAssociation (cleanrooms.getRequestOf id)).1 = none ∨
        ∃ o, (conn.GetConfiguredTableAssociation (cleanrooms.getRequestOf id)).1 = some o ∧
          o.ConfiguredTableAssociation = none) →
      (cleanrooms.findConfiguredTableAssociationByID ctx conn id).1 =
        (none, tfresource.NewEmptyResultError (some (cleanrooms.getRequestOf id)))) ∧
    ((conn.GetConfiguredTableAssociation (cleanrooms.getRequestOf id)).2 = .nil →
      ∀ o association,
        (conn.GetConfiguredTableAssociation (cleanrooms.getRequestOf id)).1 = some o →
        o.ConfiguredTableAssociation = some association →
        (cleanrooms.findConfiguredTableAssociationByID ctx conn id).1 = (some o, .nil)) ∧
    (((cleanrooms.findConfiguredTableAssociationByID ctx conn id).1.1 = none ∧
        (cleanrooms.findConfiguredTableAssociationByID ctx conn id).1.2 ≠ .nil) ∨
      ((cleanrooms.findConfiguredTableAssociationByID ctx conn id).1.1 ≠ none ∧
        (cleanrooms.findConfiguredTableAssociationByID ctx conn id).1.2 = .nil)) := by
  refine ⟨cleanrooms.find_accessDenied ctx conn id, cleanrooms.find_otherError ctx conn id,
    ?_, ?_, ?_⟩
  · intro hnil hempty
    rw [cleanrooms.find_noError ctx conn id hnil]
    rcases hempty with h | ⟨o, ho, hcta⟩
    · rw [h]
    · rw [ho]
      simp only [hcta]
  · intro hnil o association ho hcta
    rw [cleanrooms.find_noError ctx conn id hnil, ho]
    simp only [hcta]
  · by_cases hA :
        WrapsAccessDenied (conn.GetConfiguredTableAssociation (cleanrooms.getRequestOf id)).2
    · rw [cleanrooms.find_accessDenied ctx conn id hA]
      exact Or.inl ⟨rfl, by simp⟩
    · by_cases hne : (conn.GetConfiguredTableAssociation (cleanrooms.getRequestOf id)).2 = .nil
      · rw [cleanrooms.find_noError ctx conn id hne]
        split
        · exact Or.inl ⟨rfl, by simp [tfresource.NewEmptyResultError]⟩
        · split
          · exact Or.inl ⟨rfl, by simp [tfresource.NewEmptyResultError]⟩
          · exact Or.inr ⟨by simp, rfl⟩
      · rw [cleanrooms.find_otherError ctx conn id hA hne]
        exact Or.inl ⟨rfl, hne⟩

/-- The finder on a lookup that the service denies: the error comes back inside a
NotFoundError that remembers the request. -/
theorem findConfiguredTableAssociationByID_classifies_witness :
    (cleanrooms.findConfiguredTableAssociationByID sampleContext deniedClient.CleanRoomsClient
        "cta-1").1 =
      (none,
        .NotFoundError
          (.wrapError "operation error CleanRooms: GetConfiguredTableAssociation"
            (.AccessDeniedException (some "not authorized")))
          (some (cleanrooms.getRequestOf "cta-1")) "") :=
  (findConfiguredTableAssociationByID_classifies sampleContext deniedClient.CleanRoomsClient
    "cta-1").1 ⟨some "not authorized", by decide⟩

/-! ### Read -/

theorem cleanrooms.read_of_found (ctx : Context) (d : schema.ResourceData)
    (meta : conns.AWSClient) (out : Option GetConfiguredTableAssociationOutput) (err : GoError)
    (h : (cleanrooms.findConfiguredTableAssociationByID ctx meta.CleanRoomsClient d.Id).1 =
      (out, err)) :
    cleanrooms.resourceConfiguredTableAssociationRead ctx d meta =
      if (!d.IsNewResource && tfresource.NotFound err) = true then
        { d := d.SetId ""
          calls := [ApiCall.GetConfiguredTableAssociation (cleanrooms.getRequestOf d.Id)]
          outcome := .returned [] }
      else if err ≠ .nil then
        { d := d
          calls := [ApiCall.GetConfiguredTableAssociation (cleanrooms.getRequestOf d.Id)]
          outcome := .returned (create.DiagError names.CleanRooms create.ErrActionReading
            cleanrooms.ResNameConfiguredTableAssociation d.Id err) }
      else
        match out.bind fun o => o.ConfiguredTableAssociation with
        | none =>
          { d := d
            calls := [ApiCall.GetConfiguredTableAssociation (cleanrooms.getRequestOf d.Id)]
            outcome := .nilPointerPanic }
        | some association =>
          match association.CreateTime with
          | none =>
            { d := ((d.Set names.AttrARN association.Arn).Set names.AttrName
                association.Name).Set names.AttrDescription association.Description
              calls := [ApiCall.GetConfiguredTableAssociation (cleanrooms.getRequestOf d.Id)]
              outcome := .nilPointerPanic }
          | some createTime =>
            match association.UpdateTime with
            | none =>
              { d := (((d.Set names.AttrARN association.Arn).Set names.AttrName
                  association.Name).Set names.AttrDescription association.Description).Set
                  "create_time" (some createTime.String)
                calls := [ApiCall.GetConfiguredTableAssociation (cleanrooms.getRequestOf d.Id)]
                outcome := .nilPointerPanic }
            | some updateTime =>
              { d := (((((d.Set names.AttrARN association.Arn).Set names.AttrName
                  association.Name).Set names.AttrDescription association.Description).Set
                  "create_time" (some createTime.String)).Set
                  "update_time" (some updateTime.String)).Set
                  "membership_identifier" association.MembershipId
                calls := [ApiCall.GetConfiguredTableAssociation (cleanrooms.getRequestOf d.Id)]
                outcome := .returned [] } := by
  unfold cleanrooms.resourceConfiguredTableAssociationRead
  simp only [h, cleanrooms.find_calls]

/-- C3: when the lookup fails, Read removes a resource that is not new and whose lookup error
is a not-found error (an AccessDeniedException from the API and an empty result are such
errors): it sets the ID to the empty string, sets nothing else and returns no diagnostics. In
every other failing case it returns one error diagnostic and leaves the resource data as it
was. -/
theorem read_when_lookup_fails (ctx : Context) (d : schema.ResourceData) (meta : conns.AWSClient)
    (hfail :
      (cleanrooms.findConfiguredTableAssociationByID ctx meta.CleanRoomsClient d.Id).1.2 ≠ .nil) :
    (d.IsNewResource = false →
      tfresource.NotFound
        (cleanrooms.findConfiguredTableAssociationByID ctx meta.CleanRoomsClient d.Id).1.2 = true →
      cleanrooms.resourceConfiguredTableAssociationRead ctx d meta =
        { d := { d with id := "" }
          calls := [ApiCall.GetConfiguredTableAssociation (cleanrooms.getRequestOf d.Id)]
          outcome := .returned [] }) ∧
    ((d.IsNewResource = true ∨
        tfresource.NotFound
          (cleanrooms.findConfiguredTableAssociationByID ctx meta.CleanRoomsClient d.Id).1.2 =
          false) →
      (cleanrooms.resourceConfiguredTableAssociationRead ctx d meta).d = d ∧
      ∃ diagnostic,
        (cleanrooms.resourceConfiguredTableAssociationRead ctx d meta).outcome =
          .returned [diagnostic] ∧
        diagnostic.Severity = .Error) ∧
    (WrapsAccessDenied
        (meta.CleanRoomsClient.GetConfiguredTableAssociation (cleanrooms.getRequestOf d.Id)).2 →
      tfresource.NotFound
        (cleanrooms.findConfiguredTableAssociationByID ctx meta.CleanRoomsClient d.Id).1.2 =
        true) ∧
    ((meta.CleanRoomsClient.GetConfiguredTableAssociation (cleanrooms.getRequestOf d.Id)).2 =
        .nil →
      tfresource.NotFound
        (cleanrooms.findConfiguredTableAssociationByID ctx meta.CleanRoomsClient d.Id).1.2 =
        true) := by
  refine ⟨?_, ?_, ?_, ?_⟩
  · intro hold hnf
    rw [cleanrooms.read_of_found ctx d meta _ _ rfl]
    simp [hold, hnf, schema.ResourceData.SetId]
  · intro hother
    rw [cleanrooms.read_of_found ctx d meta _ _ rfl]
    have hcond : ¬ (!d.IsNewResource &&
        tfresource.NotFound
          (cleanrooms.findConfiguredTableAssociationByID ctx meta.CleanRoomsClient d.Id).1.2) =
        true := by
      rcases hother with h | h <;> simp [h]
    rw [if_neg hcond, if_pos hfail]
    exact ⟨rfl, _, rfl, rfl⟩
  · intro hA
    rw [cleanrooms.find_accessDenied ctx _ _ hA]
    exact tfresource.NotFound_notFoundError _ _ _
  · intro hnil
    have hfind := cleanrooms.find_noError ctx _ _ hnil
    rw [hfind] at hfail ⊢
    revert hfail
    split
    · intro _
      exact tfresource.NotFound_emptyResult _
    · split
      · intro _
        exact tfresource.NotFound_emptyResult _
      · intro hfail
        exact absurd rfl hfail

theorem read_when_lookup_fails_witness :
    cleanrooms.resourceConfiguredTableAssociationRead sampleContext sampleData deniedClient =
      { d := { sampleData with id := "" }
        calls := [ApiCall.GetConfiguredTableAssociation (cleanrooms.getRequestOf "cta-1")]
        outcome := .returned [] } :=
  (read_when_lookup_fails sampleContext sampleData deniedClient (by decide)).1 rfl (by decide)

/-- On a successful lookup the output and its association are not nil. -/
theorem cleanrooms.find_success_nonnil (ctx : Context) (conn : cleanrooms.Client) (id : String)
    (hok : (cleanrooms.findConfiguredTableAssociationByID ctx conn id).1.2 = .nil) :
    ∃ out association,
      (cleanrooms.findConfiguredTableAssociationByID ctx conn id).1 = (some out, .nil) ∧
      out.ConfiguredTableAssociation = some association := by
  rw [cleanrooms.find_of_response ctx conn id _ _ rfl] at hok ⊢
  revert hok
  simp only
  split
  · intro h
    cases h
  · split
    · intro h
      contradiction
    · split
      · intro h
        cases h
      · rename_i o _
        split
        · intro h
          cases h
        · rename_i association hassoc
          intro _
          exact ⟨o, association, rfl, hassoc⟩

/-- The finder on a lookup that succeeds: the output and its association are there. -/
theorem cleanrooms.find_success_nonnil_witness :
    ∃ out association,
      (cleanrooms.findConfiguredTableAssociationByID sampleContext
          (foundClient sampleAssociation).CleanRoomsClient "cta-1").1 = (some out, .nil) ∧
      out.ConfiguredTableAssociation = some association :=
  cleanrooms.find_success_nonnil sampleContext (foundClient sampleAssociation).CleanRoomsClient
    "cta-1" (by decide)

/-- On a successful lookup Read ends in a nil-pointer panic exactly when the association has
no CreateTime or no UpdateTime. -/
theorem cleanrooms.read_panics_iff (ctx : Context) (d : schema.ResourceData)
    (meta : conns.AWSClient) (out : GetConfiguredTableAssociationOutput)
    (association : types.ConfiguredTableAssociation)
    (hfound : (cleanrooms.findConfiguredTableAssociationByID ctx meta.CleanRoomsClient d.Id).1 =
      (some out, .nil))
    (hassoc : out.ConfiguredTableAssociation = some association) :
    (cleanrooms.resourceConfiguredTableAssociationRead ctx d meta).outcome = .nilPointerPanic ↔
      (association.CreateTime = none ∨ association.UpdateTime = none) := by
  rw [cleanrooms.read_of_found ctx d meta _ _ hfound]
  simp only [tfresource.NotFound_nil, Bool.and_false, Bool.false_eq_true, if_false, ne_eq,
    not_true_eq_false, Option.bind, hassoc]
  cases hc : association.CreateTime with
  | none => simp
  | some createTime => cases hu : association.UpdateTime <;> simp

/-- Read on an association without UpdateTime: a nil-pointer panic. -/
theorem cleanrooms.read_panics_iff_witness :
    (cleanrooms.resourceConfiguredTableAssociationRead sampleContext sampleData
        (foundClient { sampleAssociation with UpdateTime := none })).outcome =
      .nilPointerPanic :=
  (cleanrooms.read_panics_iff sampleContext sampleData
    (foundClient { sampleAssociation with UpdateTime := none })
    { ConfiguredTableAssociation := some { sampleAssociation with UpdateTime := none } }
    { sampleAssociation with UpdateTime := none } (by decide) rfl).mpr (Or.inr rfl)

/-- The finder never gets an answer from the endpoint through the SDK's client: its request
has no MembershipIdentifier, so the SDK returns the validation error. -/
theorem cleanrooms.find_sdkClient (ctx : Context) (service : cleanrooms.Client) (id : String) :
    (cleanrooms.findConfiguredTableAssociationByID ctx (cleanrooms.sdkClient service) id).1 =
      (none, cleanrooms.validationError "GetConfiguredTableAssociation") := by
  rw [cleanrooms.find_of_response ctx (cleanrooms.sdkClient service) id none
    (cleanrooms.validationError "GetConfiguredTableAssociation") rfl]
  simp [cleanrooms.validationError, errs.IsA, errors.As]

/-- Read through the SDK's client, whatever the endpoint would answer: one error diagnostic
about the validation error, one lookup, and the resource data as it was. -/
theorem cleanrooms.read_sdkClient (ctx : Context) (d : schema.ResourceData)
    (service : cleanrooms.Client) :
    cleanrooms.resourceConfiguredTableAssociationRead ctx d
        { CleanRoomsClient := cleanrooms.sdkClient service } =
      { d := d
        calls := [ApiCall.GetConfiguredTableAssociation (cleanrooms.getRequestOf d.Id)]
        outcome := .returned (create.DiagError names.CleanRooms create.ErrActionReading
          cleanrooms.ResNameConfiguredTableAssociation d.Id
          (cleanrooms.validationError "GetConfiguredTableAssociation")) } := by
  rw [cleanrooms.read_of_found ctx d { CleanRoomsClient := cleanrooms.sdkClient service } _ _
    (cleanrooms.find_sdkClient ctx service d.Id)]
  simp [cleanrooms.validationError, tfresource.NotFound, errors.As]

/-- Through the SDK's client the lookup cannot succeed, whatever the endpoint would answer: the
finder returns the validation error, and Read returns one error diagnostic and leaves the
resource data as it was. -/
theorem sdk_client_rejects_lookup (ctx : Context) (d : schema.ResourceData)
    (service : cleanrooms.Client) :
    (cleanrooms.findConfiguredTableAssociationByID ctx (cleanrooms.sdkClient service) d.Id).1 =
      (none, cleanrooms.validationError "GetConfiguredTableAssociation") ∧
    (cleanrooms.resourceConfiguredTableAssociationRead ctx d
        { CleanRoomsClient := cleanrooms.sdkClient service }).d = d ∧
    ∃ diagnostic,
      (cleanrooms.resourceConfiguredTableAssociationRead ctx d
        { CleanRoomsClient := cleanrooms.sdkClient service }).outcome = .returned [diagnostic] ∧
      diagnostic.Severity = .Error := by
  refine ⟨cleanrooms.find_sdkClient ctx service d.Id, ?_, ?_⟩
  · rw [cleanrooms.read_sdkClient ctx d service]
  · rw [cleanrooms.read_sdkClient ctx d service]
    exact ⟨_, rfl, rfl⟩

theorem schema.ResourceData.GetOk_eq (d : schema.ResourceData) (key : String) :
    d.GetOk key =
      match d.getRaw key with
      | some v => (v, v != "")
      | none => ("", false) := rfl

theorem cleanrooms.create_of_response (ctx : Context) (d : schema.ResourceData)
    (meta : conns.AWSClient) (v : String) (b : Bool)
    (hg : d.GetOk names.AttrDescription = (v, b))
    (out : Option CreateConfiguredTableAssociationOutput) (err : GoError)
    (hresp : meta.CleanRoomsClient.CreateConfiguredTableAssociation
      { Name := some (d.Get "name")
        MembershipIdentifier := some (d.Get "membership_identifier")
        ConfiguredTableIdentifier := some (d.Get "configured_table_identifier")
        RoleArn := some (d.Get "role_arn")
        Description := if b = true then some v else none
        Tags := ctx.tagsIn } = (out, err)) :
    cleanrooms.resourceConfiguredTableAssociationCreate ctx d meta =
      { d :=
          if err ≠ .nil then d
          else
            match out.bind fun o => o.ConfiguredTableAssociation with
            | none => d
            | some association => { d with id := aws.ToString association.Id }
        calls :=
          [ApiCall.CreateConfiguredTableAssociation
            { Name := some (d.Get "name")
              MembershipIdentifier := some (d.Get "membership_identifier")
              ConfiguredTableIdentifier := some (d.Get "configured_table_identifier")
              RoleArn := some (d.Get "role_arn")
              Description := if b = true then some v else none
              Tags := ctx.tagsIn }]
        outcome :=
          if err ≠ .nil then
            .returned (create.DiagError names.CleanRooms create.ErrActionCreating
              cleanrooms.ResNameConfiguredTableAssociation (d.Get "name") err)
          else
            match out.bind fun o => o.ConfiguredTableAssociation with
            | none =>
              .returned (create.DiagError names.CleanRooms create.ErrActionCreating
                cleanrooms.ResNameConfiguredTableAssociation (d.Get "name")
                (errors.New "empty output"))
            | some _ => .returned [] } := by
  unfold cleanrooms.resourceConfiguredTableAssociationCreate
  cases b with
  | false =>
    have e : meta.CleanRoomsClient.CreateConfiguredTableAssociation
        { Name := aws.String (d.Get names.AttrName)
          MembershipIdentifier := aws.String (d.Get "membership_identifier")
          ConfiguredTableIdentifier := aws.String (d.Get "configured_table_identifier")
          RoleArn := aws.String (d.Get "role_arn")
          Description := none
          Tags := cleanrooms.getTagsIn ctx } = (out, err) := hresp
    simp only [hg, e]
    by_cases herr : err = .nil
    · subst herr
      simp only [ne_eq, not_true_eq_false, if_false]
      cases out.bind fun o => o.ConfiguredTableAssociation <;> rfl
    · simp only [ne_eq, herr, not_false_eq_true, if_true]
      rfl
  | true =>
    have e : meta.CleanRoomsClient.CreateConfiguredTableAssociation
        { Name := aws.String (d.Get names.AttrName)
          MembershipIdentifier := aws.String (d.Get "membership_identifier")
          ConfiguredTableIdentifier := aws.String (d.Get "configured_table_identifier")
          RoleArn := aws.String (d.Get "role_arn")
          Description := aws.String v
          Tags := cleanrooms.getTagsIn ctx } = (out, err) := hresp
    simp only [hg, e]
    by_cases herr : err = .nil
    · subst herr
      simp only [ne_eq, not_true_eq_false, if_false]
      cases out.bind fun o => o.ConfiguredTableAssociation <;> rfl
    · simp only [ne_eq, herr, not_false_eq_true, if_true]
      rfl

theorem schema.ResourceData.GetOk_description (d : schema.ResourceData) (v : String) (b : Bool)
    (hg : d.GetOk names.AttrDescription = (v, b)) (w : String) :
    (if b = true then some v else none) = some w ↔
      (d.getRaw "description" = some w ∧ w ≠ "") := by
  rw [schema.ResourceData.GetOk_eq] at hg
  have hk : names.AttrDescription = "description" := rfl
  rw [hk] at hg
  cases hr : d.getRaw "description" with
  | none =>
    rw [hr] at hg
    simp only [Prod.mk.injEq] at hg
    obtain ⟨_, hb⟩ := hg
    subst hb
    simp
  | some x =>
    rw [hr] at hg
    simp only [Prod.mk.injEq] at hg
    obtain ⟨hv, hb⟩ := hg
    subst hv hb
    by_cases hx : x = ""
    · subst hx
      simp
      intro h
      exact h.symm
    · simp [hx]
      intro h
      subst h
      exact hx

/-- C5: Create sends one CreateConfiguredTableAssociation request whose Name,
MembershipIdentifier, ConfiguredTableIdentifier and RoleArn are the attributes name,
membership_identifier, configured_table_identifier and role_arn, and whose Description is
present exactly when the description attribute is set to a non-empty value, and is then that
value. When the call returns an error, a nil output or a nil association, Create returns one
error diagnostic and leaves the resource data, the ID included, as it was; otherwise it returns
no diagnostics and the ID is the Id of the returned association, the empty string when that
pointer is nil. -/
theorem create_marshals_state_and_sets_id (ctx : Context) (d : schema.ResourceData)
    (meta : conns.AWSClient) :
    ∃ input : CreateConfiguredTableAssociationInput,
      (cleanrooms.resourceConfiguredTableAssociationCreate ctx d meta).calls =
        [ApiCall.CreateConfiguredTableAssociation input] ∧
      input.Name = some (d.Get "name") ∧
      input.MembershipIdentifier = some (d.Get "membership_identifier") ∧
      input.ConfiguredTableIdentifier = some (d.Get "configured_table_identifier") ∧
      input.RoleArn = some (d.Get "role_arn") ∧
      (∀ w : String, input.Description = some w ↔ (d.getRaw "description" = some w ∧ w ≠ "")) ∧
      (((meta.CleanRoomsClient.CreateConfiguredTableAssociation input).2 ≠ .nil ∨
          (meta.CleanRoomsClient.CreateConfiguredTableAssociation input).1 = none ∨
          ∃ o, (meta.CleanRoomsClient.CreateConfiguredTableAssociation input).1 = some o ∧
            o.ConfiguredTableAssociation = none) →
        (cleanrooms.resourceConfiguredTableAssociationCreate ctx d meta).d = d ∧
        ∃ diagnostic,
          (cleanrooms.resourceConfiguredTableAssociationCreate ctx d meta).outcome =
            .returned [diagnostic] ∧
          diagnostic.Severity = .Error) ∧
      (∀ o association,
        (meta.CleanRoomsClient.CreateConfiguredTableAssociation input).2 = .nil →
        (meta.CleanRoomsClient.CreateConfiguredTableAssociation input).1 = some o →
        o.ConfiguredTableAssociation = some association →
        (cleanrooms.resourceConfiguredTableAssociationCreate ctx d meta).outcome = .returned [] ∧
        (cleanrooms.resourceConfiguredTableAssociationCreate ctx d meta).d =
          { d with id := aws.ToString association.Id }) := by
  rcases hg : d.GetOk names.AttrDescription with ⟨v, b⟩
  refine ⟨{ Name := some (d.Get "name")
            MembershipIdentifier := some (d.Get "membership_identifier")
            ConfiguredTableIdentifier := some (d.Get "configured_table_identifier")
            RoleArn := some (d.Get "role_arn")
            Description := if b = true then some v else none
            Tags := ctx.tagsIn }, ?_, rfl, rfl, rfl, rfl, ?_, ?_, ?_⟩
  · rw [cleanrooms.create_of_response ctx d meta v b hg _ _ rfl]
  · exact schema.ResourceData.GetOk_description d v b hg
  · intro hfail
    rw [cleanrooms.create_of_response ctx d meta v b hg _ _ rfl]
    simp only
    by_cases herr : (meta.CleanRoomsClient.CreateConfiguredTableAssociation
        { Name := some (d.Get "name")
          MembershipIdentifier := some (d.Get "membership_identifier")
          ConfiguredTableIdentifier := some (d.Get "configured_table_identifier")
          RoleArn := some (d.Get "role_arn")
          Description := if b = true then some v else none
          Tags := ctx.tagsIn }).2 = .nil
    · have hnone : ((meta.CleanRoomsClient.CreateConfiguredTableAssociation
          { Name := some (d.Get "name")
            MembershipIdentifier := some (d.Get "membership_identifier")
            ConfiguredTableIdentifier := some (d.Get "configured_table_identifier")
            RoleArn := some (d.Get "role_arn")
            Description := if b = true then some v else none
            Tags := ctx.tagsIn }).1.bind fun o => o.ConfiguredTableAssociation) = none := by
        rcases hfail with h | h | ⟨o, ho, hassoc⟩
        · exact absurd herr h
        · rw [h]
          rfl
        · rw [ho]
          exact hassoc
      simp only [herr, hnone, ne_eq, not_true_eq_false, if_false]
      exact ⟨trivial, _, rfl, rfl⟩
    · simp only [ne_eq, herr, not_false_eq_true, if_true]
      exact ⟨trivial, _, rfl, rfl⟩
  · intro o association herr ho hassoc
    rw [cleanrooms.create_of_response ctx d meta v b hg _ _ rfl]
    have hsome : ((meta.CleanRoomsClient.CreateConfiguredTableAssociation
        { Name := some (d.Get "name")
          MembershipIdentifier := some (d.Get "membership_identifier")
          ConfiguredTableIdentifier := some (d.Get "configured_table_identifier")
          RoleArn := some (d.Get "role_arn")
          Description := if b = true then some v else none
          Tags := ctx.tagsIn }).1.bind fun o => o.ConfiguredTableAssociation) =
        some association := by
      rw [ho]
      exact hassoc
    simp only [herr, hsome, ne_eq, not_true_eq_false, if_false]
    exact ⟨trivial, trivial⟩

/-- Create on a call that succeeds: no diagnostics, and the ID is the Id of the association. -/
theorem create_marshals_state_and_sets_id_witness :
    (cleanrooms.resourceConfiguredTableAssociationCreate sampleContext
        { sampleData with id := "", isNew := true } (createdClient sampleAssociation)).outcome =
      .returned [] ∧
    (cleanrooms.resourceConfiguredTableAssociationCreate sampleContext
        { sampleData with id := "", isNew := true } (createdClient sampleAssociation)).d =
      { sampleData with id := "cta-1", isNew := true } := by
  obtain ⟨input, _, _, _, _, _, _, _, hsuccess⟩ :=
    create_marshals_state_and_sets_id sampleContext { sampleData with id := "", isNew := true }
      (createdClient sampleAssociation)
  exact hsuccess { ConfiguredTableAssociation := some sampleAssociation } sampleAssociation
    rfl rfl rfl

/-! ### Delete -/

theorem cleanrooms.delete_of_response (ctx : Context) (d : schema.ResourceData)
    (meta : conns.AWSClient) (out : Option DeleteConfiguredTableAssociationOutput)
    (err : GoError)
    (hresp : meta.CleanRoomsClient.DeleteConfiguredTableAssociation
      { ConfiguredTableAssociationIdentifier := some d.Id, MembershipIdentifier := none } =
      (out, err)) :
    cleanrooms.resourceConfiguredTableAssociationDelete ctx d meta =
      { d := d
        calls :=
          [ApiCall.DeleteConfiguredTableAssociation
            { ConfiguredTableAssociationIdentifier := some d.Id, MembershipIdentifier := none }]
        outcome :=
          if errs.IsA .AccessDeniedException err then .returned []
          else if err ≠ .nil then
            .returned (create.DiagError names.CleanRooms create.ErrActionDeleting
              cleanrooms.ResNameConfiguredTableAssociation d.Id err)
          else .returned [] } := by
  have e : meta.CleanRoomsClient.DeleteConfiguredTableAssociation
      { ConfiguredTableAssociationIdentifier := aws.String d.Id, MembershipIdentifier := none } =
      (out, err) := hresp
  unfold cleanrooms.resourceConfiguredTableAssociationDelete
  simp only [e]
  unfold aws.String
  split <;> [rfl; skip]
  split <;> rfl

/-- C6: Delete sends one DeleteConfiguredTableAssociation request whose
ConfiguredTableAssociationIdentifier is the resource ID. It returns no diagnostics exactly when
the call returned no error or an error that is, or wraps, an AccessDeniedException; for every
other error it returns one error diagnostic. It leaves the resource data, the ID and every
attribute, as it was. -/
theorem delete_request_and_diagnostics (ctx : Context) (d : schema.ResourceData)
    (meta : conns.AWSClient) :
    (cleanrooms.resourceConfiguredTableAssociationDelete ctx d meta).calls =
      [ApiCall.DeleteConfiguredTableAssociation
        { ConfiguredTableAssociationIdentifier := some d.Id, MembershipIdentifier := none }] ∧
    ((cleanrooms.resourceConfiguredTableAssociationDelete ctx d meta).outcome = .returned [] ↔
      ((meta.CleanRoomsClient.DeleteConfiguredTableAssociation
          { ConfiguredTableAssociationIdentifier := some d.Id,
            MembershipIdentifier := none }).2 = .nil ∨
        WrapsAccessDenied (meta.CleanRoomsClient.DeleteConfiguredTableAssociation
          { ConfiguredTableAssociationIdentifier := some d.Id,
            MembershipIdentifier := none }).2)) ∧
    (¬ ((meta.CleanRoomsClient.DeleteConfiguredTableAssociation
          { ConfiguredTableAssociationIdentifier := some d.Id,
            MembershipIdentifier := none }).2 = .nil ∨
        WrapsAccessDenied (meta.CleanRoomsClient.DeleteConfiguredTableAssociation
          { ConfiguredTableAssociationIdentifier := some d.Id,
            MembershipIdentifier := none }).2) →
      ∃ diagnostic,
        (cleanrooms.resourceConfiguredTableAssociationDelete ctx d meta).outcome =
          .returned [diagnostic] ∧
        diagnostic.Severity = .Error) ∧
    (cleanrooms.resourceConfiguredTableAssociationDelete ctx d meta).d = d := by
  rw [cleanrooms.delete_of_response ctx d meta _ _ rfl]
  generalize (meta.CleanRoomsClient.DeleteConfiguredTableAssociation
    { ConfiguredTableAssociationIdentifier := some d.Id, MembershipIdentifier := none }).2 = err
  have hiff := errs.IsA_accessDenied_iff err
  refine ⟨rfl, ?_, ?_, rfl⟩
  · by_cases hA : WrapsAccessDenied err
    · simp [hiff.mpr hA, hA]
    · have hA2 : errs.IsA .AccessDeniedException err = false := by
        cases hc : errs.IsA .AccessDeniedException err
        · rfl
        · exact absurd (hiff.mp hc) hA
      by_cases hnil : err = .nil
      · simp [hA2, hnil]
      · simp [hA2, hnil, hA, create.DiagError]
  · intro hnot
    have hA : ¬ WrapsAccessDenied err := fun h => hnot (Or.inr h)
    have hnil : err ≠ .nil := fun h => hnot (Or.inl h)
    have hA2 : ¬ errs.IsA .AccessDeniedException err = true := fun hc => hA (hiff.mp hc)
    simp only [if_neg hA2, if_pos hnil]
    exact ⟨_, rfl, rfl⟩

/-- Delete on a call that the service denies: no diagnostics. -/
theorem delete_request_and_diagnostics_witness :
    (cleanrooms.resourceConfiguredTableAssociationDelete sampleContext sampleData
        deniedDeleteClient).outcome = .returned [] :=
  (delete_request_and_diagnostics sampleContext sampleData deniedDeleteClient).2.1.mpr
    (Or.inr ⟨some "not authorized", by decide⟩)

/-! ### Update -/

theorem Outcome.appendTo_nil (o : Outcome) : Outcome.appendTo [] o = o := by
  cases o <;> simp [Outcome.appendTo]

theorem cleanrooms.read_calls (ctx : Context) (d : schema.ResourceData)
    (meta : conns.AWSClient) :
    (cleanrooms.resourceConfiguredTableAssociationRead ctx d meta).calls =
      [ApiCall.GetConfiguredTableAssociation (cleanrooms.getRequestOf d.Id)] := by
  rw [cleanrooms.read_of_found ctx d meta _ _ rfl]
  split <;> [rfl; skip]
  split <;> [rfl; skip]
  split <;> [rfl; skip]
  split <;> [rfl; skip]
  split <;> rfl

theorem cleanrooms.update_of_response (ctx : Context) (d : schema.ResourceData)
    (meta : conns.AWSClient) (out : Option UpdateConfiguredTableAssociationOutput)
    (err : GoError)
    (hresp : meta.CleanRoomsClient.UpdateConfiguredTableAssociation
      { ConfiguredTableAssociationIdentifier := some d.Id
        MembershipIdentifier := none
        Description :=
          if d.HasChanges ["description"] = true then some (d.Get "description") else none
        RoleArn := none } = (out, err)) :
    cleanrooms.resourceConfiguredTableAssociationUpdate ctx d meta =
      if d.HasChangesExcept ["tags", "tags_all"] = true then
        if err ≠ .nil then
          { d := d
            calls :=
              [ApiCall.UpdateConfiguredTableAssociation
                { ConfiguredTableAssociationIdentifier := some d.Id
                  MembershipIdentifier := none
                  Description :=
                    if d.HasChanges ["description"] = true then some (d.Get "description")
                    else none
                  RoleArn := none }]
            outcome := .returned (create.DiagError names.CleanRooms create.ErrActionUpdating
              cleanrooms.ResNameConfiguredTableAssociation d.Id err) }
        else
          { d := (cleanrooms.resourceConfiguredTableAssociationRead ctx d meta).d
            calls :=
              [ApiCall.UpdateConfiguredTableAssociation
                { ConfiguredTableAssociationIdentifier := some d.Id
                  MembershipIdentifier := none
                  Description :=
                    if d.HasChanges ["description"] = true then some (d.Get "description")
                    else none
                  RoleArn := none },
                ApiCall.GetConfiguredTableAssociation (cleanrooms.getRequestOf d.Id)]
            outcome := (cleanrooms.resourceConfiguredTableAssociationRead ctx d meta).outcome }
      else
        { d := (cleanrooms.resourceConfiguredTableAssociationRead ctx d meta).d
          calls := [ApiCall.GetConfiguredTableAssociation (cleanrooms.getRequestOf d.Id)]
          outcome := (cleanrooms.resourceConfiguredTableAssociationRead ctx d meta).outcome } := by
  unfold cleanrooms.resourceConfiguredTableAssociationUpdate
  simp only [Outcome.appendTo_nil, cleanrooms.read_calls]
  by_cases hx : d.HasChangesExcept ["tags", "tags_all"] = true
  · simp only [hx, if_true]
    by_cases hd : d.HasChanges ["description"] = true
    · have hd2 : d.HasChanges [names.AttrDescription] = true := hd
      have e : meta.CleanRoomsClient.UpdateConfiguredTableAssociation
          { ConfiguredTableAssociationIdentifier := aws.String d.Id
            MembershipIdentifier := none
            Description := aws.String (d.Get names.AttrDescription)
            RoleArn := none } = (out, err) := by
        rw [← hresp, if_pos hd]
        rfl
      simp only [hd2, if_true, e, hd]
      split <;> rfl
    · have hd2 : ¬ d.HasChanges [names.AttrDescription] = true := hd
      have e : meta.CleanRoomsClient.UpdateConfiguredTableAssociation
          { ConfiguredTableAssociationIdentifier := aws.String d.Id
            MembershipIdentifier := none
            Description := none
            RoleArn := none } = (out, err) := by
        rw [← hresp, if_neg hd]
        rfl
      simp only [hd2, Bool.false_eq_true, if_false, e, hd]
      split <;> rfl
  · simp only [hx, if_false]
    rfl

/-- C9: when Update calls UpdateConfiguredTableAssociation and the call returns an error,
Update returns one error diagnostic, makes no lookup (so no Read) and leaves the resource data
as it was; in every other case the resource data and the outcome of Update are those of Read on
the same data. -/
theorem update_atomic_then_read (ctx : Context) (d : schema.ResourceData)
    (meta : conns.AWSClient) :
    (∀ input,
      ApiCall.UpdateConfiguredTableAssociation input ∈
        (cleanrooms.resourceConfiguredTableAssociationUpdate ctx d meta).calls →
      (meta.CleanRoomsClient.UpdateConfiguredTableAssociation input).2 ≠ .nil →
      (cleanrooms.resourceConfiguredTableAssociationUpdate ctx d meta).d = d ∧
      (∃ diagnostic,
        (cleanrooms.resourceConfiguredTableAssociationUpdate ctx d meta).outcome =
          .returned [diagnostic] ∧
        diagnostic.Severity = .Error) ∧
      ∀ request,
        ApiCall.GetConfiguredTableAssociation request ∉
          (cleanrooms.resourceConfiguredTableAssociationUpdate ctx d meta).calls) ∧
    ((∀ input,
        ApiCall.UpdateConfiguredTableAssociation input ∈
          (cleanrooms.resourceConfiguredTableAssociationUpdate ctx d meta).calls →
        (meta.CleanRoomsClient.UpdateConfiguredTableAssociation input).2 = .nil) →
      (cleanrooms.resourceConfiguredTableAssociationUpdate ctx d meta).d =
        (cleanrooms.resourceConfiguredTableAssociationRead ctx d meta).d ∧
      (cleanrooms.resourceConfiguredTableAssociationUpdate ctx d meta).outcome =
        (cleanrooms.resourceConfiguredTableAssociationRead ctx d meta).outcome) := by
  rw [cleanrooms.update_of_response ctx d meta _ _ rfl]
  by_cases hx : d.HasChangesExcept ["tags", "tags_all"] = true
  · by_cases herr : (meta.CleanRoomsClient.UpdateConfiguredTableAssociation
        { ConfiguredTableAssociationIdentifier := some d.Id
          MembershipIdentifier := none
          Description :=
            if d.HasChanges ["description"] = true then some (d.Get "description") else none
          RoleArn := none }).2 = .nil
    · rw [if_pos hx, if_neg (fun h => h herr)]
      refine ⟨?_, fun _ => ⟨rfl, rfl⟩⟩
      intro input hmem hne
      simp only [List.mem_cons, ApiCall.UpdateConfiguredTableAssociation.injEq, reduceCtorEq,
        List.mem_singleton, List.not_mem_nil, or_false] at hmem
      subst hmem
      exact absurd herr hne
    · rw [if_pos hx, if_pos herr]
      refine ⟨?_, ?_⟩
      · intro input _ _
        refine ⟨rfl, ⟨_, rfl, rfl⟩, ?_⟩
        intro request hmem
        simp at hmem
      · intro hall
        exact absurd (hall _ (List.mem_singleton.mpr rfl)) herr
  · rw [if_neg hx]
    refine ⟨?_, fun _ => ⟨rfl, rfl⟩⟩
    intro input hmem
    simp at hmem

/-- Update on a call that fails: one error diagnostic, no lookup, the resource data as it was. -/
theorem update_atomic_then_read_witness :
    (cleanrooms.resourceConfiguredTableAssociationUpdate sampleContext renamedData
        failingUpdateClient).d = renamedData ∧
    (∃ diagnostic,
      (cleanrooms.resourceConfiguredTableAssociationUpdate sampleContext renamedData
          failingUpdateClient).outcome = .returned [diagnostic] ∧
      diagnostic.Severity = .Error) ∧
    ∀ request,
      ApiCall.GetConfiguredTableAssociation request ∉
        (cleanrooms.resourceConfiguredTableAssociationUpdate sampleContext renamedData
          failingUpdateClient).calls :=
  (update_atomic_then_read sampleContext renamedData failingUpdateClient).1
    { ConfiguredTableAssociationIdentifier := some "cta-1"
      MembershipIdentifier := none
      Description := none
      RoleArn := none }
    (by decide) (by decide)

theorem List.lookup_isSome_mem {β : Type} (key : String) (l : List (String × β)) (v : β)
    (h : l.lookup key = some v) : key ∈ l.map Prod.fst := by
  induction l with
  | nil => simp [List.lookup] at h
  | cons kv rest ih =>
    obtain ⟨k, w⟩ := kv
    by_cases hk : key = k
    · simp [hk]
    · have hb : (key == k) = false := by simpa using hk
      simp only [List.lookup, hb] at h
      simp only [List.map_cons, List.mem_cons]
      exact Or.inr (ih h)

/-- An attribute that has changed, and is not one of the excepted keys, makes
`HasChangesExcept` true. -/
theorem schema.ResourceData.HasChangesExcept_of_HasChange (d : schema.ResourceData)
    (keys : List String) (key : String) (hkey : key ∉ keys) (h : d.HasChange key = true) :
    d.HasChangesExcept keys = true := by
  have h0 := h
  unfold schema.ResourceData.HasChange at h
  rw [List.any_eq_true] at h
  obtain ⟨attr, _, hattr⟩ := h
  simp only [Bool.and_eq_true, beq_iff_eq, bne_iff_ne, ne_eq] at hattr
  obtain ⟨hroot, hdiff⟩ := hattr
  have hmem : attr ∈ d.diff.map Prod.fst := by
    cases hl : d.diff.lookup attr with
    | none =>
      exfalso
      apply hdiff
      simp [schema.ResourceData.getState, schema.ResourceData.getDiff, hl]
    | some v => exact List.lookup_isSome_mem attr d.diff v hl
  unfold schema.ResourceData.HasChangesExcept
  rw [List.any_eq_true]
  refine ⟨attr, hmem, ?_⟩
  rw [hroot, h0]
  simp [hkey]

/-- When no attribute other than the excepted keys has changed, `HasChangesExcept` is false. -/
theorem schema.ResourceData.HasChangesExcept_false (d : schema.ResourceData)
    (keys : List String) (h : ∀ key, key ∉ keys → d.HasChange key = false) :
    d.HasChangesExcept keys = false := by
  unfold schema.ResourceData.HasChangesExcept
  rw [List.any_eq_false]
  intro attr _
  by_cases hk : schema.rootAttr attr ∈ keys
  · simp [hk]
  · simp [h _ hk]

/-- What Update sends: an update in which name or description has changed calls
UpdateConfiguredTableAssociation first, with the resource ID as identifier and with the new
description when the description has changed; an update in which nothing but tags and tags_all
has changed makes no such call. -/
theorem cleanrooms.update_request (ctx : Context) (d : schema.ResourceData)
    (meta : conns.AWSClient) :
    ((d.HasChange "name" = true ∨ d.HasChange "description" = true) →
      ∃ input rest,
        (cleanrooms.resourceConfiguredTableAssociationUpdate ctx d meta).calls =
          ApiCall.UpdateConfiguredTableAssociation input :: rest ∧
        input.ConfiguredTableAssociationIdentifier = some d.Id ∧
        (d.HasChange "description" = true → input.Description = some (d.Get "description"))) ∧
    ((∀ key, key ∉ ["tags", "tags_all"] → d.HasChange key = false) →
      ∀ input,
        ApiCall.UpdateConfiguredTableAssociation input ∉
          (cleanrooms.resourceConfiguredTableAssociationUpdate ctx d meta).calls) := by
  rw [cleanrooms.update_of_response ctx d meta _ _ rfl]
  constructor
  · intro hchanged
    have hx : d.HasChangesExcept ["tags", "tags_all"] = true := by
      rcases hchanged with h | h
      · exact schema.ResourceData.HasChangesExcept_of_HasChange d _ "name" (by decide) h
      · exact schema.ResourceData.HasChangesExcept_of_HasChange d _ "description" (by decide) h
    by_cases herr : (meta.CleanRoomsClient.UpdateConfiguredTableAssociation
        { ConfiguredTableAssociationIdentifier := some d.Id
          MembershipIdentifier := none
          Description :=
            if d.HasChanges ["description"] = true then some (d.Get "description") else none
          RoleArn := none }).2 = .nil
    · rw [if_pos hx, if_neg (fun h => h herr)]
      refine ⟨_, _, rfl, rfl, ?_⟩
      intro hd
      simp [schema.ResourceData.HasChanges, hd]
    · rw [if_pos hx, if_pos herr]
      refine ⟨_, _, rfl, rfl, ?_⟩
      intro hd
      simp [schema.ResourceData.HasChanges, hd]
  · intro honly input
    rw [schema.ResourceData.HasChangesExcept_false d _ honly]
    simp

/-- C7 at the failing input: name is an attribute that the schema lets an update change in
place, the plan changes name from "orders" to "customers", and the request that Update sends has
the resource ID and nothing else; the new name is in no member of it. -/
theorem update_drops_changed_name :
    schema.inPlaceUpdatable cleanrooms.ResourceConfiguredTableAssociation.Schema =
      ["description", "name"] ∧
    renamedData.HasChange "name" = true ∧
    renamedData.Get "name" = "customers" ∧
    (cleanrooms.resourceConfiguredTableAssociationUpdate sampleContext renamedData
        (foundClient sampleAssociation)).calls =
      [ ApiCall.UpdateConfiguredTableAssociation
          { ConfiguredTableAssociationIdentifier := some "cta-1"
            MembershipIdentifier := none
            Description := none
            RoleArn := none },
        ApiCall.GetConfiguredTableAssociation (cleanrooms.getRequestOf "cta-1") ] ∧
    (cleanrooms.resourceConfiguredTableAssociationUpdate sampleContext redescribedData
        (foundClient sampleAssociation)).calls =
      [ ApiCall.UpdateConfiguredTableAssociation
          { ConfiguredTableAssociationIdentifier := some "cta-1"
            MembershipIdentifier := none
            Description := some "second"
            RoleArn := none },
        ApiCall.GetConfiguredTableAssociation (cleanrooms.getRequestOf "cta-1") ] := by
  decide

/-! ### The RUM service package -/

/-- C8: the registry of the RUM service package. SDKResources returns two entries in this order:
"aws_rum_app_monitor", made by ResourceAppMonitor, named "App Monitor", with tags identified by
the arn attribute, and "aws_rum_metrics_destination", made by ResourceMetricsDestination,
without tags. The type names differ, every entry has a factory, the other three lists are empty
and not nil, the package name is names.RUM, and no result depends on the context. -/
theorem rum_service_package_registry (p : rum.servicePackage) (ctx other : Context) :
    p.SDKResources ctx =
      some
        [ { Factory := some .ResourceAppMonitor
            TypeName := "aws_rum_app_monitor"
            Name := "App Monitor"
            Tags := some { IdentifierAttribute := "arn", ResourceType := "" } },
          { Factory := some .ResourceMetricsDestination
            TypeName := "aws_rum_metrics_destination"
            Name := ""
            Tags := none } ] ∧
    (∀ resources, p.SDKResources ctx = some resources →
      (resources.map fun r => r.TypeName).Nodup ∧ ∀ r ∈ resources, r.Factory ≠ none) ∧
    p.FrameworkDataSources ctx = some [] ∧
    p.FrameworkResources ctx = some [] ∧
    p.SDKDataSources ctx = some [] ∧
    p.ServicePackageName = names.RUM ∧
    p.SDKResources ctx = p.SDKResources other ∧
    p.FrameworkDataSources ctx = p.FrameworkDataSources other ∧
    p.FrameworkResources ctx = p.FrameworkResources other ∧
    p.SDKDataSources ctx = p.SDKDataSources other := by
  refine ⟨rfl, ?_, rfl, rfl, rfl, rfl, rfl, rfl, rfl, rfl⟩
  intro resources h
  simp only [rum.servicePackage.SDKResources, Option.some.injEq] at h
  subst h
  refine ⟨by decide, ?_⟩
  intro r hr
  simp only [List.mem_cons, List.mem_singleton, List.not_mem_nil, or_false] at hr
  rcases hr with rfl | rfl <;> simp

end TerraformProviderAws
